import Mathlib

/-!
Verification development for the Subtly repository.

This file gives a shallow embedding, in Lean 4, of the two subsystems of the
repository that the specification covers:

* the worker-process RPC transport of `src/main/main.js` (`startRuntime`'s
  stdout data handler, `sendRpc`, the process `exit` handler), and
* the model asset lifecycle of `src/main/main.js` (`getInstalledModels`,
  `downloadModel`, `cancelDownload`, `deleteModel`, the `models:get-path`
  IPC handler) together with the manifest-driven downloader of
  `scripts/download-assets.js`.

JavaScript objects decoded from JSON lines are modelled by an explicit
`Json` datatype with a JSON parser (`parseJson`) covering the JSON subset
the protocol uses (objects, arrays, strings without escape sequences,
nonnegative integer numbers, booleans, null); `JSON.parse` and the
embedded parser agree on every input appearing in this development.
Filesystem and process state are modelled by explicit state records, and
the event-driven callbacks of the source become step functions on those
records.  JavaScript numbers appearing in size comparisons are modelled in
exact arithmetic (see `isComplete`).
-/

namespace Subtly

/-- JSON values, as produced by `JSON.parse` in the main process.  Numbers
are restricted to nonnegative integers (the ids and sizes the protocol
uses) and strings carry no escape sequences; both restrictions are
documented at `parseJson`. -/
inductive Json where
  | null
  | bool (b : Bool)
  | num (n : Nat)
  | str (s : String)
  | arr (elems : List Json)
  | obj (fields : List (String × Json))

/-- JavaScript truthiness of a decoded JSON value: `''`, `0`, `false` and
`null` are falsy, every other value (including empty objects and arrays)
is truthy. -/
def Json.truthy : Json → Bool
  | .null => false
  | .bool b => b
  | .num n => n != 0
  | .str s => !s.data.isEmpty
  | .arr _ => true
  | .obj _ => true

/-- JavaScript member access `v.k` on a decoded JSON value: `none` models
`undefined` (absent field, or access on a non-object).  A duplicate key
keeps the last occurrence, as `JSON.parse` does. -/
def Json.getField : Json → String → Option Json
  | .obj fields, k => fields.foldl (fun acc f => if f.1 = k then some f.2 else acc) none
  | _, _ => none

/-! ### A JSON parser

`parseJson` models `JSON.parse` on the JSON subset used by the runtime
protocol.  It is written over `List Char` with explicit fuel so that every
definition is executable by kernel reduction. -/

/-- Whitespace characters `JSON.parse` skips between tokens. -/
def isJsonWs (c : Char) : Bool :=
  c = ' ' || c = '\t' || c = '\n' || c = '\r'

/-- Drop leading JSON whitespace. -/
def skipWs : List Char → List Char
  | [] => []
  | c :: rest => if isJsonWs c then skipWs rest else c :: rest

/-- Parse the remainder of a string literal after its opening quote.
Escape sequences are outside the modelled subset and make the parse fail. -/
def parseStringRest : List Char → Option (String × List Char)
  | [] => none
  | '"' :: rest => some ("", rest)
  | '\\' :: _ => none
  | c :: rest =>
    match parseStringRest rest with
    | some (s, r) => some (String.mk (c :: s.data), r)
    | none => none

/-- Parse a nonempty run of decimal digits into a `Nat`. -/
def parseDigits : List Char → Nat → Option (Nat × List Char)
  | [], acc => some (acc, [])
  | c :: rest, acc =>
    if c.isDigit then parseDigits rest (acc * 10 + (c.toNat - '0'.toNat))
    else some (acc, c :: rest)

mutual

/-- Parse one JSON value, returning it with the unconsumed rest. -/
def parseVal : Nat → List Char → Option (Json × List Char)
  | 0, _ => none
  | fuel + 1, cs =>
    match skipWs cs with
    | [] => none
    | '"' :: rest =>
      match parseStringRest rest with
      | some (s, r) => some (.str s, r)
      | none => none
    | '{' :: rest =>
      match skipWs rest with
      | '}' :: r => some (.obj [], r)
      | other => match parseMembers fuel other with
        | some (fs, r) => some (.obj fs, r)
        | none => none
    | '[' :: rest =>
      match skipWs rest with
      | ']' :: r => some (.arr [], r)
      | other => match parseElems fuel other with
        | some (es, r) => some (.arr es, r)
        | none => none
    | 't' :: 'r' :: 'u' :: 'e' :: rest => some (.bool true, rest)
    | 'f' :: 'a' :: 'l' :: 's' :: 'e' :: rest => some (.bool false, rest)
    | 'n' :: 'u' :: 'l' :: 'l' :: rest => some (.null, rest)
    | c :: rest =>
      if c.isDigit then
        match parseDigits rest (c.toNat - '0'.toNat) with
        | some (n, r) => some (.num n, r)
        | none => none
      else none

/-- Parse the members of a JSON object, up to and including the closing
brace. -/
def parseMembers : Nat → List Char → Option (List (String × Json) × List Char)
  | 0, _ => none
  | fuel + 1, cs =>
    match skipWs cs with
    | '"' :: rest =>
      match parseStringRest rest with
      | some (k, r) =>
        match skipWs r with
        | ':' :: r2 =>
          match parseVal fuel r2 with
          | some (v, r3) =>
            match skipWs r3 with
            | ',' :: r4 =>
              match parseMembers fuel r4 with
              | some (fs, r5) => some ((k, v) :: fs, r5)
              | none => none
            | '}' :: r4 => some ([(k, v)], r4)
            | _ => none
          | none => none
        | _ => none
      | none => none
    | _ => none

/-- Parse the elements of a JSON array, up to and including the closing
bracket. -/
def parseElems : Nat → List Char → Option (List Json × List Char)
  | 0, _ => none
  | fuel + 1, cs =>
    match parseVal fuel cs with
    | some (v, r) =>
      match skipWs r with
      | ',' :: r2 =>
        match parseElems fuel r2 with
        | some (es, r3) => some (v :: es, r3)
        | none => none
      | ']' :: r2 => some ([v], r2)
      | _ => none
    | none => none

end

/-- Model of `JSON.parse` on a full line: the whole input must be one JSON value,
possibly surrounded by whitespace; anything else yields `none` (the
`SyntaxError` branch of the source's `try`/`catch`). -/
def parseJson (s : String) : Option Json :=
  match parseVal (s.data.length + 1) s.data with
  | some (j, rest) => if (skipWs rest).isEmpty then some j else none
  | none => none

/-! ### The asset catalog

`src/shared/models.js` exports the static catalog `WHISPER_MODELS` and the
`VAD_MODEL` record.  The embedding keeps the fields the asset lifecycle
reads (`id`, `name`, `sizeBytes`, `url`, `filename`); the display-only
fields `description`, `size` and `recommended`/`required` are not consulted
by any embedded operation and are omitted. -/
structure Model where
  id : String
  name : String
  sizeBytes : Nat
  url : String
  filename : String
deriving DecidableEq

/-- The `WHISPER_MODELS` catalog of `src/shared/models.js`. -/
def WHISPER_MODELS : List Model :=
  [ ⟨"large-v3-turbo-q5_0", "Large V3 Turbo (Q5)", 601976064,
      "https://huggingface.co/ggerganov/whisper.cpp/resolve/main/ggml-large-v3-turbo-q5_0.bin",
      "ggml-large-v3-turbo-q5_0.bin"⟩,
    ⟨"large-v3-turbo", "Large V3 Turbo", 1624182016,
      "https://huggingface.co/ggerganov/whisper.cpp/resolve/main/ggml-large-v3-turbo.bin",
      "ggml-large-v3-turbo.bin"⟩,
    ⟨"large-v3", "Large V3", 3094623232,
      "https://huggingface.co/ggerganov/whisper.cpp/resolve/main/ggml-large-v3.bin",
      "ggml-large-v3.bin"⟩,
    ⟨"medium", "Medium", 1527742464,
      "https://huggingface.co/ggerganov/whisper.cpp/resolve/main/ggml-medium.bin",
      "ggml-medium.bin"⟩,
    ⟨"small", "Small", 487601152,
      "https://huggingface.co/ggerganov/whisper.cpp/resolve/main/ggml-small.bin",
      "ggml-small.bin"⟩,
    ⟨"base", "Base", 147951488,
      "https://huggingface.co/ggerganov/whisper.cpp/resolve/main/ggml-base.bin",
      "ggml-base.bin"⟩,
    ⟨"tiny", "Tiny", 77691904,
      "https://huggingface.co/ggerganov/whisper.cpp/resolve/main/ggml-tiny.bin",
      "ggml-tiny.bin"⟩ ]

/-- The `VAD_MODEL` record of `src/shared/models.js`. -/
def VAD_MODEL : Model :=
  ⟨"silero-vad", "Silero VAD", 2284548,
    "https://huggingface.co/ggml-org/whisper-vad/resolve/main/ggml-silero-v5.1.2.bin",
    "silero_vad.bin"⟩

/-- The catalog lookup shared by `downloadModel`, `deleteModel` and the
`models:get-path` handler:
`modelId === 'silero-vad' ? VAD_MODEL : WHISPER_MODELS.find((m) => m.id === modelId)`. -/
def lookupModel (modelId : String) : Option Model :=
  if modelId = "silero-vad" then some VAD_MODEL
  else WHISPER_MODELS.find? (fun m => m.id == modelId)

/-! ### The models directory

The filesystem state the asset store consults: whether the models
directory exists, plus the directory entries (`fs.readdirSync`) with the
size `fs.statSync` reports for each.  The directory is flat and every
operation addresses files by their catalog `filename`, so entries are
keyed by file name. -/
structure ModelsFs where
  dirExists : Bool
  entries : List (String × Nat)
deriving DecidableEq

/-- Model of `fs.existsSync(path.join(modelsDir, name))`. -/
def fileExists (fsm : ModelsFs) (name : String) : Bool :=
  fsm.dirExists && (fsm.entries.lookup name).isSome

/-- The `isComplete` helper of `getInstalledModels` (`src/main/main.js`
lines 84-90):

```js
if (actualSize === expectedSize) return true;
const minSize = expectedSize * 0.95;
const maxSize = expectedSize * 1.05;
return actualSize >= minSize && actualSize <= maxSize;
```

The float products `expectedSize * 0.95` and `expectedSize * 1.05` are
rendered in exact arithmetic, scaling both sides of each comparison
by 100 (`actualSize >= expectedSize * 0.95` becomes
`100 * actualSize >= 95 * expectedSize`, and symmetrically); the lemma
`isComplete_iff_bounds` below restates the definition with the literal
rational factors `95/100` and `105/100`. -/
def isComplete (actualSize expectedSize : Nat) : Bool :=
  if actualSize = expectedSize then true
  else 95 * expectedSize ≤ 100 * actualSize && 100 * actualSize ≤ 105 * expectedSize

/-- One element of `getInstalledModels`' result:
`{ ...model, path, installedSize, complete }`. -/
structure InstalledModel where
  model : Model
  path : String
  installedSize : Nat
  complete : Bool
deriving DecidableEq

/-- The body of `getInstalledModels`' per-model check: if the directory
listing contains `model.filename`, stat the file and build the installed
record. -/
def installedEntry (dir : String) (fsm : ModelsFs) (m : Model) : Option InstalledModel :=
  match fsm.entries.lookup m.filename with
  | some size => some ⟨m, dir ++ "/" ++ m.filename, size, isComplete size m.sizeBytes⟩
  | none => none

/-- Embedding of `getInstalledModels` (`src/main/main.js` lines 74-118): an empty list
when the models directory does not exist; otherwise every catalog model
whose filename is present in the directory, followed by the VAD model if
present. -/
def getInstalledModels (dir : String) (fsm : ModelsFs) : List InstalledModel :=
  if fsm.dirExists then
    WHISPER_MODELS.filterMap (installedEntry dir fsm) ++
      (installedEntry dir fsm VAD_MODEL).toList
  else []

/-- The `models:get-path` IPC handler (`src/main/main.js` lines 351-359):
`null` when the id is not in the catalog, the joined path if the file
exists, `null` otherwise. -/
def getModelPath (dir : String) (fsm : ModelsFs) (modelId : String) : Option String :=
  match lookupModel modelId with
  | none => none
  | some m =>
    if fileExists fsm m.filename then some (dir ++ "/" ++ m.filename) else none

/-- Embedding of `deleteModel` (`src/main/main.js` lines 198-215): throws on an id
absent from the catalog; otherwise unlinks the file if present and reports
whether a deletion occurred. -/
def deleteModel (fsm : ModelsFs) (modelId : String) : ModelsFs × Except String Bool :=
  match lookupModel modelId with
  | none => (fsm, .error ("Unknown model: " ++ modelId))
  | some m =>
    if fileExists fsm m.filename then
      ({ fsm with entries := fsm.entries.filter (fun e => e.1 != m.filename) }, .ok true)
    else (fsm, .ok false)

/-! ### The worker-process RPC transport

`src/main/main.js` keeps the transport state in module-level variables:
`runtimeProcess` (spawned child or `null`), `rpcCounter`, the `pending`
map of outstanding calls, `mainWindow`, and the derived facts the control
flow consults (`fs.existsSync(runtimePath)` inside `startRuntime`, the
`shouldAutoStart` flag).  `MainState` collects them; `pending` keeps the
ids of the outstanding `PendingCall`s in insertion order (`Map` iteration
order).  `running` models `runtimeProcess !== null && runtimeProcess.exitCode === null`. -/
structure MainState where
  running : Bool
  binaryExists : Bool
  autoStart : Bool
  hasWindow : Bool
  rpcCounter : Nat
  pending : List Nat
deriving DecidableEq

/-- Observable outcomes of the stdout data handler: an event forwarded to
the renderer, a pending call resolved with `message.result`, a pending
call rejected (the rejection carries `message.error.message || 'Runtime
error'`), or a line whose `JSON.parse` failed and was only logged. -/
inductive RtAction where
  | eventSent (message : Json)
  | resolved (rid : Nat) (result : Option Json)
  | rejected (rid : Nat) (emsg : Json)
  | parseFailed (line : String)

/-- The argument of the rejection built at `src/main/main.js` line 244:
`message.error.message || 'Runtime error'`. -/
def rejectionMessage (err : Json) : Json :=
  match err.getField "message" with
  | some v => if v.truthy then v else .str "Runtime error"
  | none => .str "Runtime error"

/-- Dispatch of one decoded stdout message (`src/main/main.js` lines
235-248): a truthy `event` field with a window present forwards the whole
message to the renderer; otherwise a truthy `id` held in `pending`
resolves or rejects that call and removes it; every other message is
dropped silently. -/
def dispatchMessage (st : MainState) (message : Json) : MainState × List RtAction :=
  if ((message.getField "event").map Json.truthy).getD false && st.hasWindow then
    (st, [.eventSent message])
  else
    match message.getField "id" with
    | some idv =>
      if idv.truthy then
        match idv with
        | .num n =>
          if st.pending.contains n then
            let st' := { st with pending := st.pending.erase n }
            match message.getField "error" with
            | some e =>
              if e.truthy then (st', [.rejected n (rejectionMessage e)])
              else (st', [.resolved n (message.getField "result")])
            | none => (st', [.resolved n (message.getField "result")])
          else (st, [])
        | _ => (st, [])
      else (st, [])
    | none => (st, [])

/-- Processing of one line of the stdout data handler: `JSON.parse` in a
`try`/`catch` whose `catch` only logs, then `dispatchMessage`. -/
def dispatchLine (st : MainState) (line : String) : MainState × List RtAction :=
  match parseJson line with
  | none => (st, [.parseFailed line])
  | some message => dispatchMessage st message

/-- Left-to-right processing of a list of decoded messages, accumulating
actions (successive iterations of the `for` loop on already-parsed
lines). -/
def dispatchMessages (st : MainState) : List Json → MainState × List RtAction
  | [] => (st, [])
  | j :: js =>
    let r := dispatchMessage st j
    let rest := dispatchMessages r.1 js
    (rest.1, r.2 ++ rest.2)

/-- Left-to-right processing of a list of lines, accumulating actions (the
`for (const line of lines)` loop). -/
def dispatchLines (st : MainState) : List String → MainState × List RtAction
  | [] => (st, [])
  | line :: lines =>
    let r := dispatchLine st line
    let rest := dispatchLines r.1 lines
    (rest.1, r.2 ++ rest.2)

/-- Model of `chunk.split('\n')` over the characters of one chunk. -/
def splitNl : List Char → List Char → List String
  | [], acc => [String.mk acc.reverse]
  | c :: rest, acc =>
    if c = '\n' then String.mk acc.reverse :: splitNl rest []
    else splitNl rest (c :: acc)

/-- The line segmentation of the stdout data handler (`src/main/main.js`
line 232): `chunk.split('\n').filter(Boolean)` — each chunk is split on
newline on its own and empty segments are dropped. -/
def splitChunkLines (chunk : String) : List String :=
  (splitNl chunk.data []).filter (fun l => !l.data.isEmpty)

/-- The stdout `data` handler (`src/main/main.js` lines 231-253) for one
inbound chunk. -/
def onData (st : MainState) (chunk : String) : MainState × List RtAction :=
  dispatchLines st (splitChunkLines chunk)

/-- The stdout `data` handler applied to a sequence of inbound chunks. -/
def onChunks (st : MainState) : List String → MainState × List RtAction
  | [] => (st, [])
  | chunk :: chunks =>
    let r := onData st chunk
    let rest := onChunks r.1 chunks
    (rest.1, r.2 ++ rest.2)

/-- Embedding of `startRuntime` (`src/main/main.js` lines 217-268) as far as the
supervisor state is concerned: when the runtime binary is missing it shows
an error box and returns without spawning; otherwise it spawns the child
and wires the stream handlers.  Neither branch touches `pending` or
`rpcCounter`. -/
def startRuntime (st : MainState) : MainState :=
  if st.binaryExists then { st with running := true } else st

/-- The process `exit` handler (`src/main/main.js` lines 264-267):

```js
runtimeProcess.on('exit', (code) => {
  console.warn(`Runtime exited with code ${code}`);
  runtimeProcess = null;
});
```

It logs, marks the process as gone, and performs no other state change;
the returned action list is the handler's observable effect on the
outstanding calls. -/
def onProcessExit (st : MainState) : MainState × List RtAction :=
  ({ st with running := false }, [])

/-- Embedding of `sendRpc` (`src/main/main.js` lines 270-287): start the runtime first
when it is not running and auto-start is enabled; throw when it is still
not running; otherwise allocate the next id, store the `PendingCall`, and
write the request line.  The result is the allocated request id (the
promise itself stays pending until a matching response arrives). -/
def sendRpc (st : MainState) : MainState × Except String Nat :=
  let st1 := if !st.running && st.autoStart then startRuntime st else st
  if !st1.running then (st1, .error "Runtime process is not running")
  else
    ({ st1 with rpcCounter := st1.rpcCounter + 1, pending := st1.pending ++ [st1.rpcCounter] },
      .ok st1.rpcCounter)

/-! ### `downloadModel` / `cancelDownload`

`downloadModel` (`src/main/main.js` lines 120-186) is a callback machine
driven by `http(s)` responses and stream events.  The embedding makes the
callbacks a step function over an explicit state.  One download of one
model is modelled; `activeDownloads` is the shared registry keyed by model
id, and `registered` models `activeDownloads.has(modelId)` for the model
being downloaded (operations on distinct ids touch distinct keys). -/

/-- The final destination `path.join(modelsDir, model.filename)`. -/
def destPathOf (dir : String) (m : Model) : String := dir ++ "/" ++ m.filename

/-- The staging name: `` `${destPath}.download` ``. -/
def tempPathOf (destPath : String) : String := destPath ++ ".download"

/-- The part of an HTTP response `downloadModel`'s callback consults:
`statusCode`, the `location` header, and `content-length` (absent or
unparsable modelled as `none`). -/
structure HttpResponse where
  statusCode : Nat
  location : Option String
  contentLength : Option Nat
deriving DecidableEq

/-- Events driving one `downloadModel` transfer: an HTTP response to the
current request, a request-level `error`, a `data` chunk of `n` bytes, the
write stream's `finish`, a stream `error`, or a concurrent
`cancelDownload(modelId)` call. -/
inductive DlEvent where
  | response (r : HttpResponse)
  | requestError (emsg : String)
  | dataChunk (n : Nat)
  | streamFinish
  | streamError (emsg : String)
  | cancelRequest
deriving DecidableEq

/-- Phases of one transfer: request sent and awaiting a (possibly
redirected) response; response accepted and body streaming into the temp
file; promise settled. -/
inductive DlPhase where
  | connecting
  | streaming
  | closed
deriving DecidableEq

/-- Settlement of the `downloadModel` promise. -/
inductive DlResult where
  | success (p : String)
  | failure (emsg : String)
deriving DecidableEq

/-- State of one transfer plus the filesystem facts the claims are about:
whether `<destPath>.download` exists, and whether the completed file has
been renamed to `destPath` (`finalExists`).  `registered` is the
`activeDownloads` entry; `aborted` records that `res.destroy()` was
invoked. -/
structure DlState where
  phase : DlPhase
  registered : Bool
  aborted : Bool
  tempExists : Bool
  finalExists : Bool
  downloadedBytes : Nat
  totalBytes : Nat
  result : Option DlResult
deriving DecidableEq

/-- Outputs of a step: a progress callback invocation (`progress` is
`Math.round((downloadedBytes / totalBytes) * 100)`, computed here in exact
arithmetic as `⌊(200 d + t) / (2 t)⌋`), or the boolean returned by a
`cancelDownload` call. -/
inductive DlOut where
  | progressed (pct : Nat) (downloadedBytes : Nat) (totalBytes : Nat)
  | cancelReturned (b : Bool)
deriving DecidableEq

/-- Initial state: request issued by `makeRequest(model.url)`, nothing on
disk, not registered. -/
def dlInit : DlState :=
  { phase := .connecting, registered := false, aborted := false, tempExists := false,
    finalExists := false, downloadedBytes := 0, totalBytes := 0, result := none }

/-- One step of the `downloadModel` machine (`src/main/main.js` lines
136-196).  A `3xx` response with a `location` header re-issues the request
(`makeRequest(res.headers.location)`); a status `>= 400` rejects; any
other response creates the temp write stream, registers the
`DownloadHandle`, and starts streaming with
`totalBytes = parseInt(content-length) || model.sizeBytes` (a `0` or
absent header falls back to the catalog size).  While streaming, `data`
accumulates bytes and fires the progress callback, `finish` renames the
temp file onto the final name, and a stream error unlinks the temp file;
all three settle or keep the promise accordingly.  `cancelDownload`
(lines 188-196) aborts and deregisters when a handle is registered and
returns whether one was found. -/
def dlStep (m : Model) (dir : String) (st : DlState) (ev : DlEvent) : DlState × List DlOut :=
  match st.phase, ev with
  | .connecting, .response r =>
    if 300 ≤ r.statusCode ∧ r.statusCode < 400 ∧ r.location.isSome then
      (st, [])
    else if 400 ≤ r.statusCode then
      ({ st with
         phase := .closed,
         result := some (.failure ("Download failed with status " ++ toString r.statusCode)) }, [])
    else
      ({ st with
         phase := .streaming,
         registered := true,
         tempExists := true,
         downloadedBytes := 0,
         totalBytes := match r.contentLength with
           | some n => if n = 0 then m.sizeBytes else n
           | none => m.sizeBytes }, [])
  | .connecting, .requestError e =>
      ({ st with phase := .closed, result := some (.failure e) }, [])
  | .streaming, .dataChunk n =>
      let d := st.downloadedBytes + n
      ({ st with downloadedBytes := d },
        [.progressed ((200 * d + st.totalBytes) / (2 * st.totalBytes)) d st.totalBytes])
  | .streaming, .streamFinish =>
      ({ st with
         phase := .closed,
         tempExists := false,
         finalExists := true,
         registered := false,
         result := some (.success (destPathOf dir m)) }, [])
  | .streaming, .streamError e =>
      ({ st with
         phase := .closed,
         tempExists := false,
         registered := false,
         result := some (.failure e) }, [])
  | _, .cancelRequest =>
      if st.registered then
        ({ st with registered := false, aborted := true }, [.cancelReturned true])
      else (st, [.cancelReturned false])
  | _, _ => (st, [])

/-- Successive events applied from a given state, accumulating outputs. -/
def dlRunFrom (m : Model) (dir : String) (st : DlState) : List DlEvent → DlState × List DlOut
  | [] => (st, [])
  | ev :: evs =>
    let r := dlStep m dir st ev
    let rest := dlRunFrom m dir r.1 evs
    (rest.1, r.2 ++ rest.2)

/-- A whole transfer: the step function driven over the event sequence
from the initial state. -/
def dlRun (m : Model) (dir : String) (evs : List DlEvent) : DlState × List DlOut :=
  dlRunFrom m dir dlInit evs

/-- The catalog guard at the top of `downloadModel` (lines 121-127): an id
absent from the catalog rejects before any request is made. -/
def downloadModelGuard (modelId : String) : Except String Model :=
  match lookupModel modelId with
  | none => .error ("Unknown model: " ++ modelId)
  | some m => .ok m

/-! ### The manifest-driven downloader

`scripts/download-assets.js` provisions assets from a manifest.
`downloadFile` streams one URL into its destination while feeding every
chunk to a SHA-256 hash, and resolves the hex digest; `downloadAsset`
compares that digest against the manifest's expected value and runs the
optional gunzip/chmod post-processing.  SHA-256 itself is the Node
`crypto` primitive; the embedding abstracts it as a function `H` from the
concatenated byte stream to its hex digest (incremental `hash.update`
calls on the chunks compute exactly the digest of their concatenation). -/

/-- One asset record of `assets-manifest.json` (the fields
`downloadAsset` reads).  `sha256 = none` models an absent property;
JavaScript also treats an empty string as "no expected hash"
(`asset.sha256 &&` is falsy). -/
structure ManifestAsset where
  name : String
  url : String
  dest : String
  sha256 : Option String
  extract : Option String
  mode : Option String
deriving DecidableEq

/-- Filesystem facts about one asset that the claims mention: whether a
file exists at `dest`, whether its content is the complete stream, and
whether the gunzip-extracted file exists. -/
structure AssetFs where
  destExists : Bool
  destComplete : Bool
  extractedExists : Bool
deriving DecidableEq

/-- Before `downloadAsset`: nothing on disk for this asset. -/
def assetFsInit : AssetFs :=
  { destExists := false, destComplete := false, extractedExists := false }

/-- The stream outcome of one non-redirect response in
`downloadFile`: the write stream finishes, or a stream error fires. -/
inductive NetOutcome where
  | finish
  | streamFailed (emsg : String)
deriving DecidableEq

/-- One response in the redirect chain `downloadFile` walks: the fields
its callback reads plus, for a final response, the streamed body chunks
and how the stream ends.  `statusCode = none` models a missing status. -/
structure NetResp where
  statusCode : Option Nat
  location : Option String
  chunks : List (List Nat)
  outcome : NetOutcome
deriving DecidableEq

/-- One event of the network script feeding `downloadFile`: a response, or
a request-level `error`. -/
inductive NetEvent where
  | resp (r : NetResp)
  | connFailed (emsg : String)
deriving DecidableEq

/-- Status rendering inside the template literal
`` `Download failed (${res.statusCode}) for ${url}` `` (`undefined` prints
as the string `undefined`). -/
def statusText : Option Nat → String
  | some c => toString c
  | none => "undefined"

/-- Embedding of `downloadFile` (`scripts/download-assets.js` lines 27-54) on a script
of successive responses: follow a `3xx`-with-`location` response by
re-requesting (consuming the next script event); reject on a missing
status or a status `>= 400`; otherwise stream the body into `dest`
(`fs.createWriteStream(destPath)` writes the final name directly — this
variant stages no temp file), hashing every chunk, and resolve the digest
of the whole stream on `finish` or reject on a stream error (leaving the
partial file in place).  An exhausted script means the promise never
settles and is modelled by the distinguished error `"pending"`. -/
def downloadFile (H : List Nat → String) (script : List NetEvent) (url : String)
    (fsa : AssetFs) : AssetFs × Except String String :=
  match script with
  | [] => (fsa, .error "pending")
  | .connFailed e :: _ => (fsa, .error e)
  | .resp r :: rest =>
    if (match r.statusCode with | some c => 300 ≤ c && c < 400 | none => false) &&
        r.location.isSome then
      downloadFile H rest (r.location.getD url) fsa
    else if (match r.statusCode with | some c => 400 ≤ c | none => true : Bool) then
      (fsa, .error ("Download failed (" ++ statusText r.statusCode ++ ") for " ++ url))
    else
      match r.outcome with
      | .finish =>
        ({ fsa with destExists := true, destComplete := true }, .ok (H r.chunks.flatten))
      | .streamFailed e =>
        ({ fsa with destExists := true, destComplete := false }, .error e)

/-- Whether the gunzip post-processing step of `downloadAsset` applies:
`asset.extract === 'gunzip' && destPath.endsWith('.gz')`. -/
def gunzipApplies (asset : ManifestAsset) : Bool :=
  asset.extract == some "gunzip" && decide (asset.dest.data.reverse.take 3 = ['z', 'g', '.'])

/-- Embedding of `downloadAsset` (`scripts/download-assets.js` lines 56-84): download,
then — when an expected hash is present, is not the `'REPLACE_ME'`
sentinel, and differs from the computed digest — remove the file and
fail; otherwise keep the file and, when the gunzip step applies, replace
`dest` by its extracted form (the `chmod` flips no fact this model
tracks). -/
def downloadAsset (H : List Nat → String) (script : List NetEvent)
    (asset : ManifestAsset) : AssetFs × Except String Unit :=
  match downloadFile H script asset.url assetFsInit with
  | (fsa, .error e) => (fsa, .error e)
  | (fsa, .ok actualHash) =>
    if (match asset.sha256 with | some s => !s.data.isEmpty | none => false) &&
        asset.sha256 != some "REPLACE_ME" && some actualHash != asset.sha256 then
      ({ fsa with destExists := false, destComplete := false },
        .error ("Checksum mismatch for " ++ asset.name ++ ": expected " ++
          (asset.sha256.getD "") ++ ", got " ++ actualHash))
    else if gunzipApplies asset then
      ({ fsa with destExists := false, destComplete := false, extractedExists := true }, .ok ())
    else (fsa, .ok ())

/-- A response message as the worker emits it on the wire: either a
success response `{id, result}` or an error response
`{id, error: {message}}`.  Used to state C3. -/
inductive RMsg where
  | ok (rid : Nat) (result : Json)
  | err (rid : Nat) (emsg : String)

/-- The id a response correlates on. -/
def RMsg.rid : RMsg → Nat
  | .ok i _ => i
  | .err i _ => i

/-- The decoded wire form of a response. -/
def respJson : RMsg → Json
  | .ok i r => .obj [("id", .num i), ("result", r)]
  | .err i m => .obj [("id", .num i), ("error", .obj [("message", .str m)])]

/-- The action a response must produce for its own caller: resolution with
its own `result`, or rejection with its own `error.message`. -/
def expectedAction : RMsg → RtAction
  | .ok i r => .resolved i (some r)
  | .err i m => .rejected i (.str m)

/-- Responses the protocol promises: nonzero ids (the channel allocates
ids from 1) and nonempty error messages. -/
def respWellFormed : RMsg → Bool
  | .ok i _ => i != 0
  | .err i s => (i != 0) && !s.data.isEmpty

/-- The invariant a `downloadModel` transfer maintains: while connecting
(including across redirects) nothing is registered, nothing is on disk
and the promise is unsettled; a registered handle implies the streaming
phase; while streaming the promise is unsettled and the final file is
absent; and the final name exists exactly when the promise resolved
successfully. -/
def DlInv (m : Model) (dir : String) (st : DlState) : Prop :=
  (st.phase = .connecting → st.registered = false ∧ st.tempExists = false ∧
    st.finalExists = false ∧ st.result = none) ∧
  (st.registered = true → st.phase = .streaming) ∧
  (st.phase = .streaming → st.result = none ∧ st.finalExists = false) ∧
  (st.finalExists = true ↔ st.result = some (.success (destPathOf dir m)))

/-! ## Theorems -/

/-- Restatement of `isComplete` with the source's literal factors `0.95` and
`1.05` as exact rationals: the integer-scaled comparisons of the
definition coincide with `expectedSize * (95/100) ≤ actualSize ≤
expectedSize * (105/100)`. -/
theorem isComplete_iff_bounds (a e : ℕ) :
    isComplete a e = true ↔
      ((e : ℚ) * (95 / 100) ≤ a ∧ (a : ℚ) ≤ e * (105 / 100)) := by
  have hlow : ((e : ℚ) * (95 / 100) ≤ a) ↔ (95 * e ≤ 100 * a) := by
    constructor
    · intro h
      have h' : (95 : ℚ) * e ≤ 100 * a := by linarith
      exact_mod_cast h'
    · intro h
      have h' : (95 : ℚ) * e ≤ 100 * a := by exact_mod_cast h
      linarith
  have hhigh : ((a : ℚ) ≤ e * (105 / 100)) ↔ (100 * a ≤ 105 * e) := by
    constructor
    · intro h
      have h' : (100 : ℚ) * a ≤ 105 * e := by linarith
      exact_mod_cast h'
    · intro h
      have h' : (100 : ℚ) * a ≤ 105 * e := by exact_mod_cast h
      linarith
  unfold isComplete
  by_cases hae : a = e
  · subst hae
    have ha : (0 : ℚ) ≤ (a : ℚ) := Nat.cast_nonneg a
    rw [if_pos rfl]
    exact ⟨fun _ => ⟨by linarith, by linarith⟩, fun _ => rfl⟩
  · rw [if_neg hae, Bool.and_eq_true, decide_eq_true_eq, decide_eq_true_eq]
    exact and_congr hlow.symm hhigh.symm

/-- Every record `installedEntry` builds carries
`complete = isComplete installedSize sizeBytes` over its own fields. -/
theorem installedEntry_complete (dir : String) (fsm : ModelsFs) (m : Model)
    (a : InstalledModel) (h : installedEntry dir fsm m = some a) :
    a.complete = isComplete a.installedSize a.model.sizeBytes := by
  unfold installedEntry at h
  cases hl : fsm.entries.lookup m.filename with
  | none => rw [hl] at h; cases h
  | some size =>
    rw [hl] at h
    injection h with h
    subst h
    rfl

/-- C5: for every installed asset listed by `getInstalledModels`, the
`complete` flag is true iff `installedSize` is within ±5% of the
catalog's `sizeBytes` with inclusive bounds, and for `sizeBytes = 1000`
the installed sizes 950 and 1050 are complete while 949 and 1051 are
not. -/
theorem listInstalled_complete_iff_within_tolerance
    (dir : String) (fsm : ModelsFs) (a : InstalledModel)
    (ha : a ∈ getInstalledModels dir fsm) :
    (a.complete = true ↔
      ((a.model.sizeBytes : ℚ) * (95 / 100) ≤ a.installedSize ∧
        (a.installedSize : ℚ) ≤ a.model.sizeBytes * (105 / 100))) ∧
    isComplete 950 1000 = true ∧ isComplete 1050 1000 = true ∧
    isComplete 949 1000 = false ∧ isComplete 1051 1000 = false := by
  refine ⟨?_, by decide, by decide, by decide, by decide⟩
  have hc : a.complete = isComplete a.installedSize a.model.sizeBytes := by
    unfold getInstalledModels at ha
    by_cases hd : fsm.dirExists
    · rw [if_pos hd, List.mem_append] at ha
      rcases ha with hw | hv
      · obtain ⟨m, _, hm⟩ := List.mem_filterMap.mp hw
        exact installedEntry_complete dir fsm m a hm
      · rw [Option.mem_toList] at hv
        exact installedEntry_complete dir fsm VAD_MODEL a hv
    · rw [if_neg hd] at ha
      cases ha
  rw [hc]
  exact isComplete_iff_bounds a.installedSize a.model.sizeBytes

/-- Witness for C5 at a concrete filesystem holding the tiny Whisper model
at exactly its catalog size. -/
theorem listInstalled_complete_iff_within_tolerance_witness :
    (⟨⟨"tiny", "Tiny", 77691904,
        "https://huggingface.co/ggerganov/whisper.cpp/resolve/main/ggml-tiny.bin",
        "ggml-tiny.bin"⟩, "/m/ggml-tiny.bin", 77691904, true⟩ : InstalledModel) ∈
      getInstalledModels "/m" ⟨true, [("ggml-tiny.bin", 77691904)]⟩ ∧
    ((true = true ↔
      ((77691904 : ℚ) * (95 / 100) ≤ (77691904 : ℕ) ∧
        ((77691904 : ℕ) : ℚ) ≤ (77691904 : ℕ) * (105 / 100))) ∧
      isComplete 950 1000 = true ∧ isComplete 1050 1000 = true ∧
      isComplete 949 1000 = false ∧ isComplete 1051 1000 = false) :=
  ⟨by decide,
    listInstalled_complete_iff_within_tolerance "/m" ⟨true, [("ggml-tiny.bin", 77691904)]⟩
      ⟨⟨"tiny", "Tiny", 77691904,
        "https://huggingface.co/ggerganov/whisper.cpp/resolve/main/ggml-tiny.bin",
        "ggml-tiny.bin"⟩, "/m/ggml-tiny.bin", 77691904, true⟩ (by decide)⟩

/-- After filtering out every entry keyed `k`, a lookup of `k` finds
nothing. -/
theorem lookup_filter_ne (l : List (String × Nat)) (k : String) :
    (l.filter (fun e => e.1 != k)).lookup k = none := by
  induction l with
  | nil => rfl
  | cons e t ih =>
    obtain ⟨k', v⟩ := e
    by_cases h : k' = k
    · subst h
      simpa [List.filter_cons] using ih
    · have hk : (k == k') = false := beq_eq_false_iff_ne.mpr (Ne.symm h)
      simp [List.filter_cons, bne_iff_ne, h, List.lookup, hk, ih]

/-- C8: deleting an installed asset returns `true` and removes the file;
an immediately repeated delete returns `false` and changes nothing; an id
absent from the catalog throws `Unknown model: <id>` instead of returning
`false`. -/
theorem delete_twice_then_unknown_throws (fsm : ModelsFs) (modelId uid : String)
    (m : Model) (hm : lookupModel modelId = some m)
    (hex : fileExists fsm m.filename = true) (hu : lookupModel uid = none) :
    (deleteModel fsm modelId).2 = .ok true ∧
    (deleteModel (deleteModel fsm modelId).1 modelId).2 = .ok false ∧
    (deleteModel (deleteModel fsm modelId).1 modelId).1 = (deleteModel fsm modelId).1 ∧
    (deleteModel fsm uid).2 = .error ("Unknown model: " ++ uid) := by
  have h1 : deleteModel fsm modelId =
      ({ fsm with entries := fsm.entries.filter (fun e => e.1 != m.filename) }, .ok true) := by
    unfold deleteModel
    rw [hm]
    simp [hex]
  have hex2 : fileExists
      { fsm with entries := fsm.entries.filter (fun e => e.1 != m.filename) }
      m.filename = false := by
    unfold fileExists
    simp [lookup_filter_ne]
  have h2 : deleteModel (deleteModel fsm modelId).1 modelId =
      ((deleteModel fsm modelId).1, .ok false) := by
    rw [h1]
    unfold deleteModel
    rw [hm]
    simp [hex2]
  refine ⟨by rw [h1], by rw [h2], by rw [h2], ?_⟩
  unfold deleteModel
  rw [hu]

/-- Witness for C8: delete the installed VAD model twice, then delete an
unknown id. -/
theorem delete_twice_then_unknown_throws_witness :
    (deleteModel ⟨true, [("silero_vad.bin", 2284548)]⟩ "silero-vad").2 = .ok true ∧
    (deleteModel (deleteModel ⟨true, [("silero_vad.bin", 2284548)]⟩ "silero-vad").1
      "silero-vad").2 = .ok false ∧
    (deleteModel (deleteModel ⟨true, [("silero_vad.bin", 2284548)]⟩ "silero-vad").1
      "silero-vad").1 = (deleteModel ⟨true, [("silero_vad.bin", 2284548)]⟩ "silero-vad").1 ∧
    (deleteModel ⟨true, [("silero_vad.bin", 2284548)]⟩ "nope").2 =
      .error ("Unknown model: " ++ "nope") :=
  delete_twice_then_unknown_throws ⟨true, [("silero_vad.bin", 2284548)]⟩ "silero-vad" "nope"
    VAD_MODEL (by decide) (by decide) (by decide)

/-- C7 counterexample: `models:get-path` on an id absent from the catalog
returns `null` — exactly the same observable outcome as a catalog id whose
file is not installed — rather than a hard error; the handler has no error
outcome at all. -/
theorem getpath_unknown_id_yields_null :
    lookupModel "no-such-model" = none ∧
    getModelPath "/m" ⟨true, []⟩ "no-such-model" = none ∧
    (lookupModel "tiny").isSome = true ∧
    getModelPath "/m" ⟨true, []⟩ "tiny" = none := by
  refine ⟨by decide, by decide, by decide, by decide⟩

/-- C7 amended: `resolvePath` returns the on-disk path only if the known
asset's file exists and `null` when it does not; an asset id absent from
the catalog also yields `null` (no distinct hard error). -/
theorem getpath_null_for_missing_and_unknown (dir : String) (fsm : ModelsFs)
    (modelId : String) :
    (lookupModel modelId = none → getModelPath dir fsm modelId = none) ∧
    (∀ m, lookupModel modelId = some m →
      getModelPath dir fsm modelId =
        if fileExists fsm m.filename then some (dir ++ "/" ++ m.filename) else none) := by
  constructor
  · intro h
    unfold getModelPath
    rw [h]
  · intro m h
    unfold getModelPath
    rw [h]

/-- Witness for C7 (amended) at a filesystem holding the VAD model. -/
theorem getpath_null_for_missing_and_unknown_witness :
    getModelPath "/m" ⟨true, [("silero_vad.bin", 1)]⟩ "silero-vad" =
      some "/m/silero_vad.bin" := by
  rw [(getpath_null_for_missing_and_unknown "/m" ⟨true, [("silero_vad.bin", 1)]⟩
    "silero-vad").2 VAD_MODEL (by decide)]
  decide

/-- C1 counterexample: the process `exit` handler leaves both outstanding
PendingCalls (ids 1 and 2) in the pending map and rejects nothing; it only
marks the process as not running. -/
theorem exit_does_not_reject_pending :
    (onProcessExit ⟨true, true, true, true, 3, [1, 2]⟩).1 =
      ⟨false, true, true, true, 3, [1, 2]⟩ ∧
    (onProcessExit ⟨true, true, true, true, 3, [1, 2]⟩).2 = [] :=
  ⟨rfl, rfl⟩

/-- C1 amended: on process exit the supervisor marks the process as not
running but neither rejects nor removes the outstanding PendingCalls (so
their callers keep waiting); a subsequent `sendRpc` starts a fresh process
when auto-start is enabled and the binary exists, and otherwise fails with
`Runtime process is not running`. -/
theorem exit_marks_stopped_keeps_pending (st : MainState)
    (hrun : st.running = true) (hout : st.pending ≠ []) :
    (onProcessExit st).1.running = false ∧
    (onProcessExit st).1.pending = st.pending ∧
    (onProcessExit st).2 = [] ∧
    (st.autoStart = true → st.binaryExists = true →
      (sendRpc (onProcessExit st).1).2 = .ok st.rpcCounter ∧
      (sendRpc (onProcessExit st).1).1.running = true ∧
      (sendRpc (onProcessExit st).1).1.pending = st.pending ++ [st.rpcCounter]) ∧
    (st.autoStart = false →
      (sendRpc (onProcessExit st).1).2 = .error "Runtime process is not running") := by
  refine ⟨rfl, rfl, rfl, ?_, ?_⟩
  · intro hauto hbin
    unfold sendRpc startRuntime onProcessExit
    simp [hauto, hbin]
  · intro hauto
    unfold sendRpc startRuntime onProcessExit
    simp [hauto]

/-- Witness for C1 (amended): a running supervisor with two outstanding
calls, auto-start enabled, binary present. -/
theorem exit_marks_stopped_keeps_pending_witness :
    (onProcessExit ⟨true, true, true, true, 3, [1, 2]⟩).1.running = false ∧
    (onProcessExit ⟨true, true, true, true, 3, [1, 2]⟩).1.pending = [1, 2] ∧
    (onProcessExit ⟨true, true, true, true, 3, [1, 2]⟩).2 = [] ∧
    (true = true → true = true →
      (sendRpc (onProcessExit ⟨true, true, true, true, 3, [1, 2]⟩).1).2 = .ok 3 ∧
      (sendRpc (onProcessExit ⟨true, true, true, true, 3, [1, 2]⟩).1).1.running = true ∧
      (sendRpc (onProcessExit ⟨true, true, true, true, 3, [1, 2]⟩).1).1.pending =
        [1, 2] ++ [3]) ∧
    (true = false →
      (sendRpc (onProcessExit ⟨true, true, true, true, 3, [1, 2]⟩).1).2 =
        .error "Runtime process is not running") :=
  exit_marks_stopped_keeps_pending ⟨true, true, true, true, 3, [1, 2]⟩ rfl (by decide)

/-- Appending strings appends their character lists. -/
theorem string_data_append (s t : String) : (s ++ t).data = s.data ++ t.data := rfl

/-- Rebuilding a string from its own characters is the identity. -/
theorem string_mk_data (s : String) : String.mk s.data = s := rfl

/-- Splitting a newline-free character list yields the one accumulated
segment. -/
theorem splitNl_no_nl (cs : List Char) (acc : List Char) (h : '\n' ∉ cs) :
    splitNl cs acc = [String.mk (acc.reverse ++ cs)] := by
  induction cs generalizing acc with
  | nil => simp [splitNl]
  | cons c rest ih =>
    have hc : c ≠ '\n' := fun hcc => h (hcc ▸ List.mem_cons_self c rest)
    have hrest : '\n' ∉ rest := fun hr => h (List.mem_cons_of_mem c hr)
    rw [splitNl, if_neg hc, ih (c :: acc) hrest]
    simp

/-- Splitting a newline-free character list followed by one newline yields
the segment and one empty trailing segment. -/
theorem splitNl_append_nl (cs : List Char) (acc : List Char) (h : '\n' ∉ cs) :
    splitNl (cs ++ ['\n']) acc = [String.mk (acc.reverse ++ cs), String.mk []] := by
  induction cs generalizing acc with
  | nil => simp [splitNl]
  | cons c rest ih =>
    have hc : c ≠ '\n' := fun hcc => h (hcc ▸ List.mem_cons_self c rest)
    have hrest : '\n' ∉ rest := fun hr => h (List.mem_cons_of_mem c hr)
    rw [List.cons_append, splitNl, if_neg hc, ih (c :: acc) hrest]
    simp

/-- A newline-terminated, newline-free, nonempty line is segmented as that
single line. -/
theorem splitChunkLines_line (l : String) (h : '\n' ∉ l.data) (hne : l.data ≠ []) :
    splitChunkLines (l ++ "\n") = [l] := by
  unfold splitChunkLines
  have hd : (l ++ "\n").data = l.data ++ ['\n'] := string_data_append l "\n"
  rw [hd, splitNl_append_nl l.data [] h]
  have hie : l.data.isEmpty = false := by simp [List.isEmpty_iff, hne]
  simp [List.filter, string_mk_data, hie]

/-- A newline-free, nonempty chunk is segmented as itself. -/
theorem splitChunkLines_no_nl (l : String) (h : '\n' ∉ l.data) (hne : l.data ≠ []) :
    splitChunkLines l = [l] := by
  unfold splitChunkLines
  rw [splitNl_no_nl l.data [] h]
  have hie : l.data.isEmpty = false := by simp [List.isEmpty_iff, hne]
  simp [List.filter, string_mk_data, hie]

/-- C4: a line whose `JSON.parse` fails is logged and discarded — it
leaves the channel state untouched (so nothing pending is resolved or
rejected and later lines are still processed), and a line sequence with
the bad line in the middle produces exactly the actions of the two valid
lines around the logged parse failure. -/
theorem invalid_json_line_inert (st : MainState) (l1 bad l2 : String)
    (hbad : parseJson bad = none) :
    dispatchLine (dispatchLine st l1).1 bad =
      ((dispatchLine st l1).1, [.parseFailed bad]) ∧
    dispatchLines st [l1, bad, l2] =
      ((dispatchLine (dispatchLine st l1).1 l2).1,
        (dispatchLine st l1).2 ++
          RtAction.parseFailed bad :: (dispatchLine (dispatchLine st l1).1 l2).2) ∧
    dispatchLines st [l1, l2] =
      ((dispatchLine (dispatchLine st l1).1 l2).1,
        (dispatchLine st l1).2 ++ (dispatchLine (dispatchLine st l1).1 l2).2) := by
  have hb : ∀ s : MainState, dispatchLine s bad = (s, [.parseFailed bad]) := by
    intro s
    unfold dispatchLine
    rw [hbad]
  refine ⟨hb _, ?_, ?_⟩
  · simp [dispatchLines, hb]
  · simp [dispatchLines]

/-- Witness for C4: a garbage line between two valid response lines; both
responses still resolve their own pending calls. -/
theorem invalid_json_line_inert_witness :
    dispatchLines ⟨true, true, true, true, 3, [1, 2]⟩
        ["\x7b\"id\":1,\"result\":5\x7d", "\x7bgarbage", "\x7b\"id\":2,\"result\":6\x7d"] =
      (⟨true, true, true, true, 3, []⟩,
        [.resolved 1 (some (.num 5)), .parseFailed "\x7bgarbage",
          .resolved 2 (some (.num 6))]) := by
  have h := invalid_json_line_inert ⟨true, true, true, true, 3, [1, 2]⟩
    "\x7b\"id\":1,\"result\":5\x7d" "\x7bgarbage" "\x7b\"id\":2,\"result\":6\x7d" rfl
  rw [h.2.1]
  rfl

/-- C2 counterexample: the stdout handler keeps no cross-chunk line
buffer.  A response for pending id 1 whose bytes arrive split across two
chunks (the terminating newline in the second) is parsed
fragment-by-fragment: both fragments fail `JSON.parse`, the message is
dispatched zero times — not exactly once — and id 1 stays pending, while
the same bytes in a single chunk dispatch it once. -/
theorem split_message_never_dispatched :
    (onChunks ⟨true, true, true, true, 3, [1]⟩
      ["\x7b\"id\":1,", "\"result\":2\x7d\n"]).1.pending = [1] ∧
    (onChunks ⟨true, true, true, true, 3, [1]⟩
      ["\x7b\"id\":1,", "\"result\":2\x7d\n"]).2 =
        [.parseFailed "\x7b\"id\":1,", .parseFailed "\"result\":2\x7d"] ∧
    (onChunks ⟨true, true, true, true, 3, [1]⟩
      ["\x7b\"id\":1,\"result\":2\x7d\n"]).2 = [.resolved 1 (some (.num 2))] :=
  ⟨rfl, rfl, rfl⟩

/-- C2 amended: each inbound chunk is split on newline by itself and every
nonempty segment is processed immediately as a complete line, with no
partial-line state retained between chunks; hence a newline-terminated
message wholly inside one chunk is decoded and dispatched exactly once,
while a message split across chunk boundaries is parsed
fragment-by-fragment and each fragment that is not valid JSON on its own
is logged and dropped, leaving the channel state unchanged. -/
theorem chunks_processed_without_buffering (st : MainState) (line f1 f2 : String)
    (hl : '\n' ∉ line.data) (hlne : line.data ≠ [])
    (hf1 : '\n' ∉ f1.data) (hf1ne : f1.data ≠ []) (hp1 : parseJson f1 = none)
    (hf2 : '\n' ∉ f2.data) (hf2ne : f2.data ≠ []) (hp2 : parseJson f2 = none) :
    onData st (line ++ "\n") = dispatchLine st line ∧
    onChunks st [f1, f2 ++ "\n"] = (st, [.parseFailed f1, .parseFailed f2]) := by
  have e1 : onData st f1 = (st, [.parseFailed f1]) := by
    unfold onData
    rw [splitChunkLines_no_nl f1 hf1 hf1ne]
    simp [dispatchLines, dispatchLine, hp1]
  have e2 : onData st (f2 ++ "\n") = (st, [.parseFailed f2]) := by
    unfold onData
    rw [splitChunkLines_line f2 hf2 hf2ne]
    simp [dispatchLines, dispatchLine, hp2]
  constructor
  · unfold onData
    rw [splitChunkLines_line line hl hlne]
    simp [dispatchLines]
  · simp [onChunks, e1, e2]

/-- Witness for C2 (amended): a one-chunk message with its newline, and
the two invalid fragments of the counterexample. -/
theorem chunks_processed_without_buffering_witness :
    onData ⟨true, true, true, true, 3, [1]⟩ ("\x7b\"id\":7\x7d" ++ "\n") =
      dispatchLine ⟨true, true, true, true, 3, [1]⟩ "\x7b\"id\":7\x7d" ∧
    onChunks ⟨true, true, true, true, 3, [1]⟩
        ["\x7b\"id\":9,", "\"result\":2\x7d" ++ "\n"] =
      (⟨true, true, true, true, 3, [1]⟩,
        [.parseFailed "\x7b\"id\":9,", .parseFailed "\"result\":2\x7d"]) :=
  chunks_processed_without_buffering ⟨true, true, true, true, 3, [1]⟩
    "\x7b\"id\":7\x7d" "\x7b\"id\":9," "\"result\":2\x7d"
    (by decide) (by decide) (by decide) (by decide) rfl (by decide) (by decide) rfl

/-- One well-formed response dispatches exactly as C3 expects: if its id
is pending it removes that id and produces its own expected action,
otherwise it changes nothing and produces nothing. -/
theorem dispatchMessage_respJson (st : MainState) (m : RMsg)
    (hw : respWellFormed m = true) :
    dispatchMessage st (respJson m) =
      if st.pending.contains m.rid then
        ({ st with pending := st.pending.erase m.rid }, [expectedAction m])
      else (st, []) := by
  cases m with
  | ok i r =>
    have hi : (i != 0) = true := hw
    unfold dispatchMessage respJson
    simp [Json.getField, List.foldl, RMsg.rid, expectedAction, Json.truthy, hi]
  | err i s =>
    have hi : (i != 0) = true := (Bool.and_eq_true _ _ ▸ hw).1
    have hs : (!s.data.isEmpty) = true := (Bool.and_eq_true _ _ ▸ hw).2
    have hrm : rejectionMessage (.obj [("message", .str s)]) = .str s := by
      simp [rejectionMessage, Json.getField, Json.truthy, hs]
    unfold dispatchMessage respJson
    simp [Json.getField, List.foldl, RMsg.rid, expectedAction, Json.truthy, hi, hrm]

/-- C3: for any batch of well-formed responses with distinct ids arriving
in any order, every response whose id is outstanding produces exactly its
own caller's action (resolution with its own result, or rejection with
its own error message) and removes exactly its own id from the pending
map, while every response whose id matches no outstanding request is
dropped silently, affecting neither the actions nor the pending map. -/
theorem responses_resolve_matching_ids (st : MainState) (rs : List RMsg)
    (hnd : st.pending.Nodup)
    (hids : (rs.map RMsg.rid).Nodup)
    (hw : ∀ m ∈ rs, respWellFormed m = true) :
    (dispatchMessages st (rs.map respJson)).2 =
      rs.filterMap (fun m =>
        if st.pending.contains m.rid then some (expectedAction m) else none) ∧
    (dispatchMessages st (rs.map respJson)).1.pending =
      st.pending.filter (fun i => !(rs.map RMsg.rid).contains i) := by
  induction rs generalizing st with
  | nil =>
    simp [dispatchMessages]
  | cons m ms ih =>
    have hwm : respWellFormed m = true := hw m (List.mem_cons_self m ms)
    have hwms : ∀ m' ∈ ms, respWellFormed m' = true := fun m' hm' =>
      hw m' (List.mem_cons_of_mem m hm')
    have hidms : (ms.map RMsg.rid).Nodup := (List.nodup_cons.mp (by simpa using hids)).2
    have hmr : m.rid ∉ ms.map RMsg.rid := (List.nodup_cons.mp (by simpa using hids)).1
    have hstep := dispatchMessage_respJson st m hwm
    by_cases hc : st.pending.contains m.rid
    · rw [if_pos hc] at hstep
      have hnd' : (st.pending.erase m.rid).Nodup := List.Nodup.erase m.rid hnd
      obtain ⟨iha, ihp⟩ := ih { st with pending := st.pending.erase m.rid } hnd' hidms hwms
      constructor
      · simp only [List.map_cons, dispatchMessages, hstep]
        rw [iha, List.filterMap_cons]
        simp only [hc, if_true, List.singleton_append]
        congr 1
        apply List.filterMap_congr
        intro m' hm'
        have hne : m'.rid ≠ m.rid := fun he =>
          hmr (he ▸ List.mem_map_of_mem RMsg.rid hm')
        have hce : (st.pending.erase m.rid).contains m'.rid = st.pending.contains m'.rid := by
          simp [List.elem_iff, List.mem_erase_of_ne hne]
        rw [hce]
      · simp only [List.map_cons, dispatchMessages, hstep]
        rw [ihp]
        simp only [List.Nodup.erase_eq_filter hnd m.rid, List.filter_filter]
        apply List.filter_congr
        intro i hi
        by_cases h : i = m.rid <;> simp [List.contains_cons, Bool.not_or, h]
    · rw [if_neg hc] at hstep
      have hcm : m.rid ∉ st.pending := by
        intro hmem
        exact hc (by simpa [List.elem_iff] using hmem)
      obtain ⟨iha, ihp⟩ := ih st hnd hidms hwms
      constructor
      · simp only [List.map_cons, dispatchMessages, hstep]
        rw [iha, List.filterMap_cons]
        simp [hcm]
      · simp only [List.map_cons, dispatchMessages, hstep]
        rw [ihp]
        apply List.filter_congr
        intro i hi
        have hne : i ≠ m.rid := by
          intro he
          apply hc
          simpa [List.elem_iff] using he ▸ hi
        simp [List.contains_cons, Bool.not_or, hne]

/-- Witness for C3: calls 1, 2, 3 pending; responses arrive in the order
3 (success), 2 (error), 1 (success), then an unmatched id 9. -/
theorem responses_resolve_matching_ids_witness :
    (dispatchMessages ⟨true, true, true, true, 4, [1, 2, 3]⟩
        (List.map respJson [RMsg.ok 3 (.num 30), RMsg.err 2 "bad",
          RMsg.ok 1 (.num 10), RMsg.ok 9 (.num 90)])).2 =
      List.filterMap (fun m =>
          if List.contains [1, 2, 3] m.rid then some (expectedAction m) else none)
        [RMsg.ok 3 (.num 30), RMsg.err 2 "bad", RMsg.ok 1 (.num 10),
          RMsg.ok 9 (.num 90)] ∧
    (dispatchMessages ⟨true, true, true, true, 4, [1, 2, 3]⟩
        (List.map respJson [RMsg.ok 3 (.num 30), RMsg.err 2 "bad",
          RMsg.ok 1 (.num 10), RMsg.ok 9 (.num 90)])).1.pending =
      List.filter (fun i =>
          !(List.map RMsg.rid [RMsg.ok 3 (.num 30), RMsg.err 2 "bad",
            RMsg.ok 1 (.num 10), RMsg.ok 9 (.num 90)]).contains i) [1, 2, 3] :=
  responses_resolve_matching_ids ⟨true, true, true, true, 4, [1, 2, 3]⟩
    [RMsg.ok 3 (.num 30), RMsg.err 2 "bad", RMsg.ok 1 (.num 10), RMsg.ok 9 (.num 90)]
    (by decide) (by decide) (by decide)

/-- The initial transfer state satisfies the invariant. -/
theorem dlInv_init (m : Model) (dir : String) : DlInv m dir dlInit := by
  simp [DlInv, dlInit]

/-- Every `downloadModel` step preserves the invariant. -/
theorem dlInv_step (m : Model) (dir : String) (st : DlState) (ev : DlEvent)
    (h : DlInv m dir st) : DlInv m dir (dlStep m dir st ev).1 := by
  obtain ⟨ph, reg, ab, te, fe, d, t, res⟩ := st
  obtain ⟨h1, h2, h3, h4⟩ := h
  cases ph <;> cases ev <;> simp_all [dlStep, DlInv] <;> (try split_ifs) <;> simp_all

/-- The invariant holds after any event sequence from an invariant
state. -/
theorem dlInv_runFrom (m : Model) (dir : String) (evs : List DlEvent) (st : DlState)
    (h : DlInv m dir st) : DlInv m dir (dlRunFrom m dir st evs).1 := by
  induction evs generalizing st with
  | nil => simpa [dlRunFrom] using h
  | cons ev evs ih =>
    simp only [dlRunFrom]
    exact ih (dlStep m dir st ev).1 (dlInv_step m dir st ev h)

/-- The invariant holds in every reachable transfer state. -/
theorem dlInv_run (m : Model) (dir : String) (evs : List DlEvent) :
    DlInv m dir (dlRun m dir evs).1 :=
  dlInv_runFrom m dir evs dlInit (dlInv_init m dir)

/-- C6: `downloadModel` stages in `<finalPath>.download`; in every
reachable state the final name exists iff the promise resolved
successfully (never a partial file under the final name); a status `>= 400`
response is a terminal failure leaving nothing on disk; a stream error
deletes the temp file and settles the promise with that error; and only
stream completion renames the temp file onto the final name, settling
successfully. -/
theorem download_stages_in_temp_file (m : Model) (dir : String) (evs : List DlEvent)
    (c : Nat) (hc : 400 ≤ c) (e : String) :
    tempPathOf (destPathOf dir m) = destPathOf dir m ++ ".download" ∧
    ((dlRun m dir evs).1.finalExists = true ↔
      (dlRun m dir evs).1.result = some (.success (destPathOf dir m))) ∧
    ((dlRun m dir evs).1.phase = .connecting →
      (dlStep m dir (dlRun m dir evs).1 (.response ⟨c, none, none⟩)).1.result =
          some (.failure ("Download failed with status " ++ toString c)) ∧
      (dlStep m dir (dlRun m dir evs).1 (.response ⟨c, none, none⟩)).1.tempExists = false ∧
      (dlStep m dir (dlRun m dir evs).1 (.response ⟨c, none, none⟩)).1.finalExists = false) ∧
    ((dlRun m dir evs).1.phase = .streaming →
      (dlStep m dir (dlRun m dir evs).1 (.streamError e)).1.tempExists = false ∧
      (dlStep m dir (dlRun m dir evs).1 (.streamError e)).1.finalExists = false ∧
      (dlStep m dir (dlRun m dir evs).1 (.streamError e)).1.result = some (.failure e)) ∧
    ((dlRun m dir evs).1.phase = .streaming →
      (dlStep m dir (dlRun m dir evs).1 .streamFinish).1.tempExists = false ∧
      (dlStep m dir (dlRun m dir evs).1 .streamFinish).1.finalExists = true ∧
      (dlStep m dir (dlRun m dir evs).1 .streamFinish).1.result =
        some (.success (destPathOf dir m))) := by
  obtain ⟨h1, h2, h3, h4⟩ := dlInv_run m dir evs
  generalize hj : (dlRun m dir evs).1 = j at h1 h2 h3 h4 ⊢
  obtain ⟨ph, reg, ab, te, fe, d, t, res⟩ := j
  refine ⟨rfl, h4, ?_, ?_, ?_⟩
  · intro hph
    obtain ⟨hreg, hte, hfe, hres⟩ := h1 hph
    simp only at hph hte hfe
    subst hph
    have hnr : ¬(300 ≤ c ∧ c < 400 ∧ (none : Option String).isSome = true) := by
      rintro ⟨-, hlt, -⟩
      omega
    simp [dlStep, hnr, hc, hte, hfe]
  · intro hph
    obtain ⟨hres, hfe⟩ := h3 hph
    simp only at hph hfe
    subst hph
    simp [dlStep, hfe]
  · intro hph
    simp only at hph
    subst hph
    simp [dlStep]

/-- Witness for C6: a 404 response from the initial state fails without
touching the disk, and a stream error after a 200 response leaves no temp
file. -/
theorem download_stages_in_temp_file_witness :
    tempPathOf (destPathOf "/m" VAD_MODEL) = destPathOf "/m" VAD_MODEL ++ ".download" ∧
    ((dlRun VAD_MODEL "/m" []).1.finalExists = true ↔
      (dlRun VAD_MODEL "/m" []).1.result =
        some (.success (destPathOf "/m" VAD_MODEL))) ∧
    (dlStep VAD_MODEL "/m" (dlRun VAD_MODEL "/m" []).1
        (.response ⟨404, none, none⟩)).1.result =
      some (.failure ("Download failed with status " ++ toString 404)) ∧
    (dlStep VAD_MODEL "/m"
        (dlRun VAD_MODEL "/m" [.response ⟨200, none, some 4⟩]).1
        (.streamError "boom")).1.tempExists = false := by
  have h1 := download_stages_in_temp_file VAD_MODEL "/m" [] 404 (by decide) "boom"
  have h2 := download_stages_in_temp_file VAD_MODEL "/m"
    [.response ⟨200, none, some 4⟩] 404 (by decide) "boom"
  exact ⟨h1.1, h1.2.1, (h1.2.2.1 (by decide)).1, (h2.2.2.2.1 (by decide)).1⟩

/-- C10: the `DownloadHandle` is registered only when a final (followed
redirects exhausted, status below 400) response arrives: in every
reachable connecting state nothing is registered and `cancelDownload`
returns `false` without aborting or changing anything; a redirect
response keeps the transfer connecting and unregistered; an accepted
response registers the handle; and `cancelDownload` on a registered
handle aborts the response stream, deregisters, and returns `true`. -/
theorem cancel_only_after_registration (m : Model) (dir : String) (evs : List DlEvent) :
    ((dlRun m dir evs).1.phase = .connecting → (dlRun m dir evs).1.registered = false) ∧
    ((dlRun m dir evs).1.phase = .connecting →
      dlStep m dir (dlRun m dir evs).1 .cancelRequest =
        ((dlRun m dir evs).1, [.cancelReturned false])) ∧
    ((dlRun m dir evs).1.phase = .connecting → ∀ r : HttpResponse,
      (300 ≤ r.statusCode ∧ r.statusCode < 400 ∧ r.location.isSome = true) →
      (dlStep m dir (dlRun m dir evs).1 (.response r)).1.registered = false ∧
      (dlStep m dir (dlRun m dir evs).1 (.response r)).1.phase = .connecting) ∧
    ((dlRun m dir evs).1.phase = .connecting → ∀ r : HttpResponse,
      ¬(300 ≤ r.statusCode ∧ r.statusCode < 400 ∧ r.location.isSome = true) →
      r.statusCode < 400 →
      (dlStep m dir (dlRun m dir evs).1 (.response r)).1.registered = true) ∧
    ((dlRun m dir evs).1.registered = true →
      dlStep m dir (dlRun m dir evs).1 .cancelRequest =
        ({ (dlRun m dir evs).1 with registered := false, aborted := true },
          [.cancelReturned true])) := by
  obtain ⟨h1, h2, h3, h4⟩ := dlInv_run m dir evs
  refine ⟨fun hph => (h1 hph).1, ?_, ?_, ?_, ?_⟩
  · intro hph
    simp [dlStep, hph, (h1 hph).1]
  · intro hph r hr
    constructor
    · simp [dlStep, hph, hr, (h1 hph).1]
    · simp [dlStep, hph, hr]
  · intro hph r hr hlt
    have hge : ¬400 ≤ r.statusCode := by omega
    simp [dlStep, hph, hr, hge]
  · intro hreg
    simp [dlStep, h2 hreg, hreg]

/-- Witness for C10: cancel before any response returns `false` and
aborts nothing; a 302-with-location keeps the handle unregistered; a 200
response registers it; cancel after registration aborts, deregisters and
returns `true`. -/
theorem cancel_only_after_registration_witness :
    (dlRun VAD_MODEL "/m" []).1.registered = false ∧
    dlStep VAD_MODEL "/m" (dlRun VAD_MODEL "/m" []).1 .cancelRequest =
      ((dlRun VAD_MODEL "/m" []).1, [.cancelReturned false]) ∧
    (dlStep VAD_MODEL "/m" (dlRun VAD_MODEL "/m" []).1
        (.response ⟨302, some "u", none⟩)).1.registered = false ∧
    (dlStep VAD_MODEL "/m" (dlRun VAD_MODEL "/m" []).1
        (.response ⟨200, none, some 4⟩)).1.registered = true ∧
    dlStep VAD_MODEL "/m"
        (dlRun VAD_MODEL "/m" [.response ⟨200, none, some 4⟩]).1 .cancelRequest =
      ({ (dlRun VAD_MODEL "/m" [.response ⟨200, none, some 4⟩]).1 with
          registered := false, aborted := true }, [.cancelReturned true]) := by
  have h := cancel_only_after_registration VAD_MODEL "/m" []
  have h2 := cancel_only_after_registration VAD_MODEL "/m" [.response ⟨200, none, some 4⟩]
  exact ⟨h.1 (by decide), h.2.1 (by decide),
    (h.2.2.1 (by decide) ⟨302, some "u", none⟩ (by decide)).1,
    h.2.2.2.1 (by decide) ⟨200, none, some 4⟩ (by decide) (by decide),
    h2.2.2.2.2 (by decide)⟩

/-- A successful `downloadFile` wrote the complete stream to `dest` and
returned the digest of the concatenated body chunks of the (finishing)
final response of its redirect chain. -/
theorem downloadFile_ok (H : List Nat → String) (script : List NetEvent) :
    ∀ (url : String) (fsa fst : AssetFs) (d : String),
      downloadFile H script url fsa = (fst, .ok d) →
      fst = { fsa with destExists := true, destComplete := true } ∧
      ∃ r : NetResp, NetEvent.resp r ∈ script ∧ r.outcome = .finish ∧
        d = H r.chunks.flatten := by
  induction script with
  | nil =>
    intro url fsa fst d h
    simp [downloadFile] at h
  | cons ev rest ih =>
    intro url fsa fst d h
    cases ev with
    | connFailed e => simp [downloadFile] at h
    | resp r =>
      rw [downloadFile] at h
      split at h
      · obtain ⟨hfs, r', hr', ho, hd⟩ := ih _ _ _ _ h
        exact ⟨hfs, r', List.mem_cons_of_mem _ hr', ho, hd⟩
      · split at h
        · simp at h
        · split at h
          · next hout =>
            obtain ⟨h1, h2⟩ := Prod.mk.injEq .. ▸ h
            refine ⟨h1.symm, r, List.mem_cons_self _ _, hout, ?_⟩
            exact (Except.ok.inj h2).symm
          · simp at h

/-- C9: the manifest downloader hashes the byte stream while writing
(every successful download's digest is the hash of the full streamed
body); when the manifest declares an expected hash that is neither absent
nor the `REPLACE_ME` sentinel and the digest differs, the downloaded file
is removed and the operation fails with a checksum error; when the
expected hash is the sentinel, verification is bypassed, the operation
succeeds, and (absent the separate gunzip post-processing step) the file
is kept. -/
theorem manifest_checksum_verification (H : List Nat → String)
    (script : List NetEvent) (asset : ManifestAsset) (d : String) (fsa : AssetFs)
    (hdl : downloadFile H script asset.url assetFsInit = (fsa, .ok d)) :
    (fsa.destExists = true ∧ fsa.destComplete = true) ∧
    (∃ r : NetResp, NetEvent.resp r ∈ script ∧ r.outcome = .finish ∧
      d = H r.chunks.flatten) ∧
    (∀ s, asset.sha256 = some s → s.data ≠ [] → s ≠ "REPLACE_ME" → d ≠ s →
      downloadAsset H script asset =
        ({ fsa with destExists := false, destComplete := false },
          .error ("Checksum mismatch for " ++ asset.name ++ ": expected " ++ s ++
            ", got " ++ d))) ∧
    (asset.sha256 = some "REPLACE_ME" →
      (downloadAsset H script asset).2 = .ok () ∧
      (gunzipApplies asset = false →
        (downloadAsset H script asset).1.destExists = true)) := by
  obtain ⟨hfs, hex⟩ := downloadFile_ok H script asset.url assetFsInit fsa d hdl
  refine ⟨by rw [hfs]; exact ⟨rfl, rfl⟩, hex, ?_, ?_⟩
  · intro s hs hne hnrm hnd
    unfold downloadAsset
    rw [hdl, hs]
    have hie : s.data.isEmpty = false := by simp [List.isEmpty_iff, hne]
    simp [hie, hnrm, hnd]
  · intro hs
    unfold downloadAsset
    rw [hdl, hs]
    constructor
    · split_ifs <;> simp
    · intro hga
      simp [hga]
      rw [hfs]

/-- Witness for C9 at a two-chunk 200 response with the `REPLACE_ME`
sentinel declared: verification is bypassed and the file kept. -/
theorem manifest_checksum_verification_witness :
    ((⟨true, true, false⟩ : AssetFs).destExists = true ∧
      (⟨true, true, false⟩ : AssetFs).destComplete = true) ∧
    (∃ r : NetResp,
      NetEvent.resp r ∈ [NetEvent.resp ⟨some 200, none, [[1, 2], [3]], .finish⟩] ∧
      r.outcome = .finish ∧
      "h" = (fun _ : List Nat => "h") r.chunks.flatten) ∧
    (∀ s, (⟨"a", "u", "d.bin", some "REPLACE_ME", none, none⟩ : ManifestAsset).sha256 =
        some s → s.data ≠ [] → s ≠ "REPLACE_ME" → "h" ≠ s →
      downloadAsset (fun _ : List Nat => "h")
          [NetEvent.resp ⟨some 200, none, [[1, 2], [3]], .finish⟩]
          ⟨"a", "u", "d.bin", some "REPLACE_ME", none, none⟩ =
        ({ (⟨true, true, false⟩ : AssetFs) with
            destExists := false, destComplete := false },
          .error ("Checksum mismatch for " ++ "a" ++ ": expected " ++ s ++
            ", got " ++ "h"))) ∧
    ((⟨"a", "u", "d.bin", some "REPLACE_ME", none, none⟩ : ManifestAsset).sha256 =
        some "REPLACE_ME" →
      (downloadAsset (fun _ : List Nat => "h")
          [NetEvent.resp ⟨some 200, none, [[1, 2], [3]], .finish⟩]
          ⟨"a", "u", "d.bin", some "REPLACE_ME", none, none⟩).2 = .ok () ∧
      (gunzipApplies ⟨"a", "u", "d.bin", some "REPLACE_ME", none, none⟩ = false →
        (downloadAsset (fun _ : List Nat => "h")
            [NetEvent.resp ⟨some 200, none, [[1, 2], [3]], .finish⟩]
            ⟨"a", "u", "d.bin", some "REPLACE_ME", none, none⟩).1.destExists = true)) :=
  manifest_checksum_verification (fun _ : List Nat => "h")
    [NetEvent.resp ⟨some 200, none, [[1, 2], [3]], .finish⟩]
    ⟨"a", "u", "d.bin", some "REPLACE_ME", none, none⟩ "h" ⟨true, true, false⟩ rfl

end Subtly
